import Mathlib

/-!
# Verification of the `administrate` multi-tenant edge server

Shallow embedding of the core of the `metric-im/administrate` repository:

* `multisite.mjs` (first revision in the file, the one currently exported):
  the Site Registry / Process Supervisor / Request Router (`MultiSite`,
  `Site`), including host-name normalization (`Site.WashName`), the
  proxy header filtering, the error-log rate limiter
  (`MultiSite.shouldLogError`), the dead-site sweep
  (`MultiSite.removeDeadSites`) and the spawn/close observers.
* the current `Certify` class (`src/unnamed/part_003`): the SNI resolver,
  the ACME challenge responder route, `getSiteKeys` (renewal scheduling
  with the `pending` map) and `renewCert`.

JavaScript plain objects used as maps (`this.sites`, `this.pending`,
`this.challenges`) are embedded as association lists with
insert-or-replace assignment, key deletion, and first-match lookup;
a JS object holds at most one value per key, which corresponds to the
`NodupKeys` invariant below.  Timestamps (`Date.now()`, `moment()`) are
modelled as milliseconds in `Int`.  `undefined`-valued header entries
(which the HTTP client does not transmit) and deleted header entries are
both modelled as `none`.
-/

/-- Lookup in a JS object modelled as an association list: `obj[k]`
(also used for the `k in obj` presence test). Returns the first binding. -/
def alookup {α : Type} : List (String × α) → String → Option α
  | [], _ => none
  | (k, v) :: t, q => if k = q then some v else alookup t q

/-- Assignment `obj[k] = v` on a JS object: replace the first binding of
`k` if present, otherwise append the new binding. -/
def aset {α : Type} (k : String) (v : α) : List (String × α) → List (String × α)
  | [] => [(k, v)]
  | (k', v') :: t => if k' = k then (k, v) :: t else (k', v') :: aset k v t

/-- Deletion `delete obj[k]` on a JS object: remove the first binding of `k`. -/
def aerase {α : Type} (k : String) : List (String × α) → List (String × α)
  | [] => []
  | (k', v') :: t => if k' = k then t else (k', v') :: aerase k t

/-- The keys of the association list are pairwise distinct — the invariant
that makes the association list a faithful model of a JS object. -/
def NodupKeys {α : Type} (m : List (String × α)) : Prop :=
  (m.map Prod.fst).Nodup

theorem alookup_aset_self {α : Type} (k : String) (v : α) (m : List (String × α)) :
    alookup (aset k v m) k = some v := by
  induction m with
  | nil => simp [aset, alookup]
  | cons hd t ih =>
    obtain ⟨k', v'⟩ := hd
    by_cases h : k' = k
    · simp [aset, h, alookup]
    · simp [aset, h, alookup, ih]

theorem mem_keys_aset {α : Type} (k x : String) (v : α) (m : List (String × α)) :
    x ∈ (aset k v m).map Prod.fst ↔ x = k ∨ x ∈ m.map Prod.fst := by
  induction m with
  | nil => simp [aset]
  | cons hd t ih =>
    obtain ⟨k', v'⟩ := hd
    by_cases h : k' = k
    · subst h
      simp [aset]
    · simp only [aset, if_neg h, List.map_cons, List.mem_cons, ih]
      tauto

theorem nodupKeys_aset {α : Type} (k : String) (v : α) (m : List (String × α))
    (h : NodupKeys m) : NodupKeys (aset k v m) := by
  induction m with
  | nil => simp [NodupKeys, aset]
  | cons hd t ih =>
    obtain ⟨k', v'⟩ := hd
    simp only [NodupKeys, List.map_cons, List.nodup_cons] at h
    by_cases hk : k' = k
    · subst hk
      simpa [NodupKeys, aset] using h
    · have ht := ih h.2
      simp only [NodupKeys, aset, if_neg hk, List.map_cons, List.nodup_cons]
      refine ⟨?_, ht⟩
      rw [mem_keys_aset]
      rintro (rfl | hmem)
      · exact hk rfl
      · exact h.1 hmem

theorem alookup_eq_none_of_not_mem_keys {α : Type} (m : List (String × α)) (k : String)
    (h : k ∉ m.map Prod.fst) : alookup m k = none := by
  induction m with
  | nil => rfl
  | cons hd t ih =>
    obtain ⟨k', v'⟩ := hd
    simp only [List.map_cons, List.mem_cons] at h
    push_neg at h
    simp [alookup, Ne.symm h.1, ih h.2]

theorem alookup_aerase_self {α : Type} (k : String) (m : List (String × α))
    (h : NodupKeys m) : alookup (aerase k m) k = none := by
  induction m with
  | nil => rfl
  | cons hd t ih =>
    obtain ⟨k', v'⟩ := hd
    simp only [NodupKeys, List.map_cons, List.nodup_cons] at h
    by_cases hk : k' = k
    · subst hk
      simp only [aerase, if_pos rfl]
      exact alookup_eq_none_of_not_mem_keys t k' h.1
    · simp [aerase, hk, alookup, ih h.2]

theorem alookup_aerase_ne {α : Type} (k d : String) (m : List (String × α))
    (h : k ≠ d) : alookup (aerase k m) d = alookup m d := by
  induction m with
  | nil => rfl
  | cons hd t ih =>
    obtain ⟨k', v'⟩ := hd
    by_cases hk : k' = k
    · subst hk
      simp [aerase, alookup, fun hh : k' = d => h hh]
    · simp [aerase, hk, alookup, ih]

theorem alookup_aerase_none {α : Type} (k d : String) (m : List (String × α))
    (h : alookup m d = none) : alookup (aerase k m) d = none := by
  induction m with
  | nil => rfl
  | cons hd t ih =>
    obtain ⟨k', v'⟩ := hd
    by_cases hd' : k' = d
    · simp [alookup, hd'] at h
    · simp only [alookup, if_neg hd'] at h
      by_cases hk : k' = k
      · simpa [aerase, hk] using h
      · simp [aerase, hk, alookup, hd', ih h]

theorem keys_aerase_subset {α : Type} (k x : String) (m : List (String × α))
    (hx : x ∈ (aerase k m).map Prod.fst) : x ∈ m.map Prod.fst := by
  induction m with
  | nil => exact hx
  | cons hd t ih =>
    obtain ⟨k', v'⟩ := hd
    by_cases hk : k' = k
    · subst hk
      simp [aerase] at hx
      simp [hx]
    · simp only [aerase, if_neg hk, List.map_cons, List.mem_cons] at hx
      rcases hx with hx | hx
      · simp [hx]
      · simp [ih hx]

theorem nodupKeys_aerase {α : Type} (k : String) (m : List (String × α))
    (h : NodupKeys m) : NodupKeys (aerase k m) := by
  induction m with
  | nil => exact h
  | cons hd t ih =>
    obtain ⟨k', v'⟩ := hd
    simp only [NodupKeys, List.map_cons, List.nodup_cons] at h
    by_cases hk : k' = k
    · simpa [aerase, hk, NodupKeys] using h.2
    · simp only [NodupKeys, aerase, if_neg hk, List.map_cons, List.nodup_cons]
      exact ⟨fun hmem => h.1 (keys_aerase_subset k k' t hmem), ih h.2⟩

theorem alookup_of_mem_nodup {α : Type} (m : List (String × α)) (d : String) (x : α)
    (hnd : NodupKeys m) (hmem : (d, x) ∈ m) : alookup m d = some x := by
  induction m with
  | nil => cases hmem
  | cons hd t ih =>
    obtain ⟨k', v'⟩ := hd
    simp only [NodupKeys, List.map_cons, List.nodup_cons] at hnd
    rcases List.mem_cons.1 hmem with heq | hmem'
    · cases heq
      simp [alookup]
    · have hne : k' ≠ d := by
        rintro rfl
        exact hnd.1 (List.mem_map.2 ⟨(k', x), hmem', rfl⟩)
      simp [alookup, hne, ih hnd.2 hmem']

/-! ## Host-name normalization: `Site.WashName` (`multisite.mjs` 419-422)

```js
static WashName(hostName="") {
  if (!hostName || hostName.match(/^[\d]{1,3}\.[\d]{1,3}\.[\d]{1,3}\.[\d]{1,3}$/)) return "";
  else return hostName.toLowerCase();
}
```

The anchored regex is embedded as a deterministic matcher: each group
`[\d]{1,3}` is read as the maximal run of leading digits (`spanDigits`),
then its length is required to be between 1 and 3 and the next character
to be a literal dot.  Maximal munch is equivalent to the backtracking
regex here because a digit group must be followed by `.` or the end of
the string, so no match can split a contiguous digit run.
-/

/-- Split a character list into its maximal leading run of decimal digits
and the remainder (the reading of one `[\d]{1,3}` group attempt). -/
def spanDigits : List Char → List Char × List Char
  | [] => ([], [])
  | c :: t =>
    if c.isDigit then
      let (g, r) := spanDigits t
      (c :: g, r)
    else ([], c :: t)

/-- Length bound `{1,3}` on one regex group. -/
def grpOK (g : List Char) : Bool := decide (1 ≤ g.length) && decide (g.length ≤ 3)

/-- The anchored regex `^[\d]{1,3}\.[\d]{1,3}\.[\d]{1,3}\.[\d]{1,3}$`
from `Site.WashName`, over the character list of the host name. -/
def ipv4Chars (l : List Char) : Bool :=
  match spanDigits l with
  | (g1, '.' :: r1) =>
    match spanDigits r1 with
    | (g2, '.' :: r2) =>
      match spanDigits r2 with
      | (g3, '.' :: r3) =>
        match spanDigits r3 with
        | (g4, []) => grpOK g1 && grpOK g2 && grpOK g3 && grpOK g4
        | _ => false
      | _ => false
    | _ => false
  | _ => false

/-- `hostName.toLowerCase()` (ASCII model of the JS lower-casing). -/
def jsToLower (s : String) : String := String.mk (s.data.map Char.toLower)

/-- `Site.WashName`: the empty host name (`!hostName`) and bare IPv4
literals map to `""`; every other host name is lower-cased. -/
def WashName (s : String) : String :=
  if s = "" then "" else if ipv4Chars s.data then "" else jsToLower s

/-- One dot-separated group of a bare IPv4 literal, as the spec words it:
one to three digits. -/
def IPv4Group (g : List Char) : Prop :=
  g ≠ [] ∧ g.length ≤ 3 ∧ ∀ c ∈ g, c.isDigit = true

/-- A bare IPv4 literal as the spec words it: four dot-separated groups
of 1-3 digits making up the whole host name. -/
def IsBareIPv4 (s : String) : Prop :=
  ∃ a b c d : List Char,
    IPv4Group a ∧ IPv4Group b ∧ IPv4Group c ∧ IPv4Group d ∧
    s.data = a ++ '.' :: (b ++ '.' :: (c ++ '.' :: d))

theorem spanDigits_cons_of_digit (c : Char) (t : List Char) (h : c.isDigit = true) :
    spanDigits (c :: t) = (c :: (spanDigits t).1, (spanDigits t).2) := by
  rcases he : spanDigits t with ⟨g, r⟩
  simp [spanDigits, h, he]

theorem spanDigits_cons_of_not_digit (c : Char) (t : List Char) (h : c.isDigit = false) :
    spanDigits (c :: t) = ([], c :: t) := by
  simp [spanDigits, h]

theorem spanDigits_append_eq (l : List Char) :
    (spanDigits l).1 ++ (spanDigits l).2 = l := by
  induction l with
  | nil => rfl
  | cons c t ih =>
    by_cases hc : c.isDigit
    · simp [spanDigits_cons_of_digit c t hc, ih]
    · simp [spanDigits_cons_of_not_digit c t (by simpa using hc)]

theorem spanDigits_fst_digits (l : List Char) :
    ∀ c ∈ (spanDigits l).1, c.isDigit = true := by
  induction l with
  | nil => intro c hc; cases hc
  | cons c t ih =>
    by_cases hc : c.isDigit
    · intro x hx
      rw [spanDigits_cons_of_digit c t hc] at hx
      rcases List.mem_cons.1 hx with rfl | hx
      · exact hc
      · exact ih x hx
    · intro x hx
      rw [spanDigits_cons_of_not_digit c t (by simpa using hc)] at hx
      cases hx

theorem spanDigits_of_digits (a r : List Char)
    (ha : ∀ c ∈ a, c.isDigit = true)
    (hr : ∀ c ∈ r.head?, c.isDigit = false) : spanDigits (a ++ r) = (a, r) := by
  induction a with
  | nil =>
    cases r with
    | nil => rfl
    | cons c t =>
      simp only [List.nil_append]
      exact spanDigits_cons_of_not_digit c t (hr c rfl)
  | cons c a' ih =>
    have hc : c.isDigit = true := ha c (List.mem_cons_self c a')
    have ha' : ∀ x ∈ a', x.isDigit = true := fun x hx => ha x (List.mem_cons_of_mem c hx)
    rw [List.cons_append, spanDigits_cons_of_digit c (a' ++ r) hc, ih ha']

theorem dot_not_digit : Char.isDigit '.' = false := by decide

theorem grpOK_eq_true (g : List Char) : grpOK g = true ↔ (g ≠ [] ∧ g.length ≤ 3) := by
  simp only [grpOK, Bool.and_eq_true, decide_eq_true_eq]
  constructor
  · rintro ⟨h1, h3⟩
    exact ⟨List.ne_nil_of_length_pos h1, h3⟩
  · rintro ⟨h1, h3⟩
    exact ⟨List.length_pos.2 h1, h3⟩

/-- The embedded `WashName` regex accepts exactly the strings of the
shape the spec describes: four dot-separated groups of 1-3 digits. -/
theorem ipv4Chars_iff (l : List Char) :
    ipv4Chars l = true ↔
      ∃ a b c d : List Char,
        IPv4Group a ∧ IPv4Group b ∧ IPv4Group c ∧ IPv4Group d ∧
        l = a ++ '.' :: (b ++ '.' :: (c ++ '.' :: d)) := by
  constructor
  · intro h
    unfold ipv4Chars at h
    split at h
    case _ g1 r1 heq1 =>
      split at h
      case _ g2 r2 heq2 =>
        split at h
        case _ g3 r3 heq3 =>
          split at h
          case _ g4 heq4 =>
            simp only [Bool.and_eq_true] at h
            obtain ⟨⟨⟨h1, h2⟩, h3⟩, h4⟩ := h
            rw [grpOK_eq_true] at h1 h2 h3 h4
            have e1 : l = g1 ++ '.' :: r1 := by
              rw [← spanDigits_append_eq l, heq1]
            have e2 : r1 = g2 ++ '.' :: r2 := by
              rw [← spanDigits_append_eq r1, heq2]
            have e3 : r2 = g3 ++ '.' :: r3 := by
              rw [← spanDigits_append_eq r2, heq3]
            have e4 : r3 = g4 := by
              rw [← spanDigits_append_eq r3, heq4, List.append_nil]
            have d1 : ∀ c ∈ g1, c.isDigit = true := by
              intro c hc; exact spanDigits_fst_digits l c (by rw [heq1]; exact hc)
            have d2 : ∀ c ∈ g2,
                c.isDigit = true := by
              intro c hc; exact spanDigits_fst_digits r1 c (by rw [heq2]; exact hc)
            have d3 : ∀ c ∈ g3, c.isDigit = true := by
              intro c hc; exact spanDigits_fst_digits r2 c (by rw [heq3]; exact hc)
            have d4 : ∀ c ∈ g4, c.isDigit = true := by
              intro c hc; exact spanDigits_fst_digits r3 c (by rw [heq4]; exact hc)
            refine ⟨g1, g2, g3, g4, ⟨h1.1, h1.2, d1⟩, ⟨h2.1, h2.2, d2⟩,
              ⟨h3.1, h3.2, d3⟩, ⟨h4.1, h4.2, d4⟩, ?_⟩
            rw [e1, e2, e3, e4]
          case _ hne => cases h
        case _ hne => cases h
      case _ hne => cases h
    case _ hne => cases h
  · rintro ⟨a, b, c, d, ha, hb, hc, hd, rfl⟩
    have h1 : spanDigits (a ++ '.' :: (b ++ '.' :: (c ++ '.' :: d))) =
        (a, '.' :: (b ++ '.' :: (c ++ '.' :: d))) :=
      spanDigits_of_digits a _ ha.2.2 (by intro x hx; cases hx; exact dot_not_digit)
    have h2 : spanDigits (b ++ '.' :: (c ++ '.' :: d)) =
        (b, '.' :: (c ++ '.' :: d)) :=
      spanDigits_of_digits b _ hb.2.2 (by intro x hx; cases hx; exact dot_not_digit)
    have h3 : spanDigits (c ++ '.' :: d) = (c, '.' :: d) :=
      spanDigits_of_digits c _ hc.2.2 (by intro x hx; cases hx; exact dot_not_digit)
    have h4 : spanDigits d = (d, []) := by
      have := spanDigits_of_digits d [] hd.2.2 (by intro x hx; cases hx)
      simpa using this
    unfold ipv4Chars
    rw [h1]
    simp only []
    rw [h2]
    simp only []
    rw [h3]
    simp only []
    rw [h4]
    simp only [Bool.and_eq_true]
    exact ⟨⟨⟨(grpOK_eq_true a).2 ⟨ha.1, ha.2.1⟩, (grpOK_eq_true b).2 ⟨hb.1, hb.2.1⟩⟩,
      (grpOK_eq_true c).2 ⟨hc.1, hc.2.1⟩⟩, (grpOK_eq_true d).2 ⟨hd.1, hd.2.1⟩⟩

/-- `IsBareIPv4` is decided by the embedded regex matcher. -/
theorem isBareIPv4_iff (s : String) : IsBareIPv4 s ↔ ipv4Chars s.data = true :=
  (ipv4Chars_iff s.data).symm

/-! ## Proxy header filtering (`multisite.mjs` 251-302)

```js
const headersToForward = { ...req.headers, 'content-length': undefined };
...
const cleanHeaders = {...response.headers};
delete cleanHeaders['transfer-encoding'];
delete cleanHeaders['content-encoding'];
```

A header object is a total map from (lower-cased) header name to an
optional value; a name bound to JS `undefined` is not transmitted by the
HTTP client, so both `delete h[k]` and `h[k] = undefined` are `none`.
-/

/-- `{ ...req.headers, 'content-length': undefined }` — the header set the
proxy forwards to the backend.  Every inbound header is spread through
unchanged except `content-length`, which is overridden with `undefined`
(so Axios recomputes it). -/
def headersToForward (reqHeaders : String → Option String) : String → Option String :=
  fun k => if k = "content-length" then none else reqHeaders k

/-- Response-header cleanup on the binary-streaming path: copy the
upstream headers, then `delete cleanHeaders['transfer-encoding']` and
`delete cleanHeaders['content-encoding']`. -/
def binaryCleanHeaders (respHeaders : String → Option String) : String → Option String :=
  fun k =>
    if k = "transfer-encoding" then none
    else if k = "content-encoding" then none
    else respHeaders k

/-- Response-header cleanup on the text-buffering path (same two deletes,
written separately in the source). -/
def textCleanHeaders (respHeaders : String → Option String) : String → Option String :=
  fun k =>
    if k = "transfer-encoding" then none
    else if k = "content-encoding" then none
    else respHeaders k

/-! ## Error-log rate limiter: `MultiSite.shouldLogError` (`multisite.mjs` 182-210) -/

/-- One entry of `this.errorLogTracker`, keyed by `clientIP:target`. -/
structure LogEntry where
  count : Nat
  firstSeen : Int
  lastLogged : Int
  deriving DecidableEq

/-- `MultiSite.shouldLogError` acting on the tracker entry for one
`(client, target)` key: takes the entry (or `none` when the key is
absent) and `Date.now()`, returns the decision and the entry stored
after the call. -/
def shouldLogError (entry : Option LogEntry) (now : Int) : Bool × LogEntry :=
  match entry with
  | none => (true, { count := 1, firstSeen := now, lastLogged := now })
  | some e =>
    let count' := e.count + 1
    if 300000 < now - e.firstSeen then
      (true, { count := 1, firstSeen := now, lastLogged := now })
    else if count' = 1 ∨ (count' % 10 = 0 ∧ 60000 < now - e.lastLogged) then
      (true, { count := count', firstSeen := e.firstSeen, lastLogged := now })
    else
      (false, { count := count', firstSeen := e.firstSeen, lastLogged := e.lastLogged })

/-! ## Site registry, port allocator and supervisor (`multisite.mjs`) -/

/-- The observable part of a child process handle: `proc.killed` is set
once a kill signal was delivered.  The handle itself may be dropped
(`this.proc = null`), which is `none` at the `Site` level. -/
structure ProcHandle where
  killed : Bool
  deriving DecidableEq

/-- One `Site`: its assigned port (`options.env.PORT`) and its process
handle (`this.proc`, `none` once the close/error observer nulled it). -/
structure SiteEntry where
  port : Nat
  proc : Option ProcHandle
  deriving DecidableEq

/-- The mutable registry state of a `MultiSite` instance: `this.sites`,
`this.usedPorts` and `this._spawnPort`. -/
structure MState where
  sites : List (String × SiteEntry)
  usedPorts : List Nat
  nextPort : Nat
  deriving DecidableEq

/-- `Set.add` on `this.usedPorts`. -/
def setAdd (p : Nat) (l : List Nat) : List Nat := if p ∈ l then l else l ++ [p]

/-- `Set.delete` on `this.usedPorts`. -/
def setDel (p : Nat) (l : List Nat) : List Nat := l.filter (fun x => x ≠ p)

/-- The `get spawnPort()` accessor: returns `this._spawnPort++` and adds
it to `this.usedPorts`. -/
def spawnPortGet (st : MState) : Nat × MState :=
  (st.nextPort,
    { st with nextPort := st.nextPort + 1, usedPorts := setAdd st.nextPort st.usedPorts })

/-- `Site.Clone(name, multisite)`: allocates a port via the `spawnPort`
getter and spawns a fresh backend process (`child_process.spawn`, whose
handle starts with `killed = false`).  The `SITE_ENV` merge in the
`Site` constructor only touches the environment and is not modelled. -/
def cloneSite (st : MState) : SiteEntry × MState :=
  let pst := spawnPortGet st
  ({ port := pst.1, proc := some { killed := false } }, pst.2)

/-- `site.proc && site.proc.killed` — the dead-site test used by
`removeDeadSites`: the handle must still be present *and* marked killed. -/
def isDeadSite (s : SiteEntry) : Bool :=
  match s.proc with
  | some p => p.killed
  | none => false

/-- The `close` observer wired in `Site.spawn` (`multisite.mjs` 379-391):
sets `this.proc = null`.  (Its `this.healthCheckIntervals` lookup
resolves to `undefined` on the `Site` instance, so the handler performs
no other state change; it neither releases the port nor touches the
registry.) -/
def siteCloseHandler (st : MState) (domain : String) : MState :=
  { st with
    sites := st.sites.map (fun kv => if kv.1 = domain then (kv.1, { kv.2 with proc := none }) else kv) }

/-- One iteration of the `removeDeadSites` loop body for the entry `kv`:
if `site.proc && site.proc.killed`, delete the port from `usedPorts` and
the entry from `sites`. -/
def reapStep (acc : MState) (kv : String × SiteEntry) : MState :=
  if isDeadSite kv.2 then
    { acc with sites := aerase kv.1 acc.sites, usedPorts := setDel kv.2.port acc.usedPorts }
  else acc

/-- `MultiSite.removeDeadSites` (`multisite.mjs` 170-179): iterate over
the `Object.keys(this.sites)` snapshot, reaping each entry whose process
handle is present and marked killed. -/
def removeDeadSites (st : MState) : MState := st.sites.foldl reapStep st

/-! ## Request router (`MultiSite.routes`, `multisite.mjs` 231-336) -/

/-- The client-visible outcome of the catch-all route.  The site-found
branch forwards to `http://127.0.0.1:<port><req.url>` (the header and
body handling of that branch is modelled by `headersToForward`,
`binaryCleanHeaders` and `textCleanHeaders` above); the site-not-found
branch answers, after a `setTimeout` delay, with a redirect. -/
inductive RouteResponse where
  | proxy (port : Nat) (url : String)
  | redirectAfter (delayMs : Nat) (location : String)
  deriving DecidableEq

/-- The catch-all handler of `MultiSite.routes`: wash the host name,
look up `this.sites[domain]`; on a hit proxy to the site's port, on a
miss assign `this.sites[domain] = Site.Clone(domain, this)` and redirect
to `//${req.hostname}${req.url}` after 2000 ms. -/
def handleRequest (st : MState) (host url : String) : MState × RouteResponse :=
  let domain := WashName host
  match alookup st.sites domain with
  | some site => (st, RouteResponse.proxy site.port url)
  | none =>
    let c := cloneSite st
    ({ c.2 with sites := aset domain c.1 c.2.sites },
      RouteResponse.redirectAfter 2000 ("//" ++ host ++ url))

/-! ## Certificate manager: `Certify` (`src/unnamed/part_003`)

Moments and dates are milliseconds since the epoch (`Int`);
`moment(x).add(n, 'days')` is `x + n * msPerDay`, `isAfter`/`isBefore`
are strict comparisons, as in moment.js.
-/

/-- `const MAX_AGE = 75; // days` -/
def MAX_AGE : Int := 75

/-- `const MAX_WAIT_TIME = 60; // seconds` -/
def MAX_WAIT_TIME : Int := 60

def msPerDay : Int := 86400000

def msPerSecond : Int := 1000

/-- The `ssl` section of a per-domain config document:
`{key: blobName, cert: blobName, certified: "YYYY-MM-DD"}`.
`certified` is the parsed date (`none` for absent/empty, which are the
falsy cases of `sslConfig?.certified`). -/
structure SSLSection where
  key : Option String
  cert : Option String
  certified : Option Int

/-- A per-domain config document (only the `ssl` section matters here). -/
structure ConfigDoc where
  ssl : Option SSLSection

/-- The Config Store collaborator: per-domain documents
(`config.setPath('/' + sitename); config.load()`) and per-domain blob
files (`config.readFile` / `config.writeFile`). -/
structure Store where
  docs : String → ConfigDoc
  files : String → String → Option String

/-- `sitename === 'localhost' || sitename.includes('.local') ||
sitename.match(/^\d+\.\d+\.\d+\.\d+$/)` — the local-name guard at the
top of `getSiteKeys`.  (This regex allows digit groups of any length,
unlike the one in `Site.WashName`.) -/
def listStartsWith : List Char → List Char → Bool
  | [], _ => true
  | _ :: _, [] => false
  | a :: as, b :: bs => a = b && listStartsWith as bs

def containsSub (needle : List Char) : List Char → Bool
  | [] => listStartsWith needle []
  | c :: t => listStartsWith needle (c :: t) || containsSub needle t

/-- The anchored regex `^\d+\.\d+\.\d+\.\d+$` (unbounded digit groups). -/
def ipv4PlusChars (l : List Char) : Bool :=
  match spanDigits l with
  | (g1, '.' :: r1) =>
    match spanDigits r1 with
    | (g2, '.' :: r2) =>
      match spanDigits r2 with
      | (g3, '.' :: r3) =>
        match spanDigits r3 with
        | (g4, []) => !g1.isEmpty && !g2.isEmpty && !g3.isEmpty && !g4.isEmpty
        | _ => false
      | _ => false
    | _ => false
  | _ => false

def isLocalName (sitename : String) : Bool :=
  sitename = "localhost" || containsSub ".local".data sitename.data || ipv4PlusChars sitename.data

/-- `!sslConfig?.certified ||
moment().isAfter(moment(sslConfig.certified).add(MAX_AGE, 'days'))` -/
def certStale (sslConfig : Option SSLSection) (now : Int) : Bool :=
  match sslConfig with
  | none => true
  | some ssl =>
    match ssl.certified with
    | none => true
    | some c => decide (c + MAX_AGE * msPerDay < now)

/-- `!this.pending[sitename] ||
moment().isAfter(moment(this.pending[sitename]).add(MAX_WAIT_TIME, 'seconds'))`
(a stored moment is always truthy, so presence is the truthiness test). -/
def pendingFree (pending : List (String × Int)) (sitename : String) (now : Int) : Bool :=
  match alookup pending sitename with
  | none => true
  | some t => decide (t + MAX_WAIT_TIME * msPerSecond < now)

/-- `if (sslConfig?.key && sslConfig?.cert) { key = readFile...; cert = readFile... }`
(a missing blob file makes `readFile` throw, which the SNI callback turns
into an error; that exceptional case is folded into `none` here). -/
def keysOf (store : Store) (sitename : String) (sslConfig : Option SSLSection) :
    Option (String × String) :=
  match sslConfig with
  | none => none
  | some ssl =>
    match ssl.key, ssl.cert with
    | some kf, some cf =>
      match store.files sitename kf, store.files sitename cf with
      | some k, some c => some (k, c)
      | _, _ => none
    | _, _ => none

/-- Result of one `getSiteKeys` call: the `this.pending` map afterwards,
whether an asynchronous `renewCert` was queued (`setTimeout(..., 10)`),
and the key/cert pair returned (or `null`). -/
structure GSKResult where
  pending : List (String × Int)
  scheduled : Bool
  keys : Option (String × String)

/-- `Certify.getSiteKeys` (`part_003` 75-111).  For local names, return
`null` without touching anything.  Otherwise load the domain's config;
if the record is stale and no fresh `PendingRenewal` exists,
synchronously write `this.pending[sitename] = moment()` and queue the
asynchronous `renewCert`; finally return the blobs if both are named in
the config.  The queued work runs after this call returns, so the
returned state is the state the asynchronous ACME exchange starts in. -/
def getSiteKeys (store : Store) (pending : List (String × Int)) (sitename : String)
    (now : Int) : GSKResult :=
  if isLocalName sitename then
    { pending := pending, scheduled := false, keys := none }
  else
    let sslConfig := (store.docs sitename).ssl
    let sched := certStale sslConfig now && pendingFree pending sitename now
    { pending := if sched then aset sitename now pending else pending,
      scheduled := sched,
      keys := keysOf store sitename sslConfig }

/-- What the SNI callback hands to `cb`. -/
inductive SNIResult where
  | err (e : String)
  | ok (keys : Option (String × String))

/-- The `SNICallback` of `Certify.SNI` (`part_003` 40-52):
`if (this.pending[hostname]) return cb('pending');` then
`cb(null, tls.createSecureContext(await this.getSiteKeys(hostname)))`.
Returns the callback outcome and the `pending` map afterwards. -/
def SNICallback (store : Store) (pending : List (String × Int)) (hostname : String)
    (now : Int) : SNIResult × List (String × Int) :=
  match alookup pending hostname with
  | some _ => (SNIResult.err "pending", pending)
  | none =>
    let r := getSiteKeys store pending hostname now
    (SNIResult.ok r.keys, r.pending)

/-- Outcome of the delegated ACME exchange inside `doRenewCert`
(`this.acme.auto`): a certificate (with the locally generated key), or a
rejection — an ACME failure or the 120 s `Promise.race` timeout. -/
inductive AcmeOutcome where
  | success (cert : String) (key : String)
  | failure (msg : String)

/-- `moment().format("YYYY-MM-DD")` re-parsed as a date: `now` truncated
to midnight. -/
def dateTrunc (t : Int) : Int := t - t % msPerDay

/-- Result of a `renewCert` call: the Config Store and `this.pending`
afterwards, whether an ACME exchange was performed, and the surfaced
error if the call threw. -/
structure RenewResult where
  store : Store
  pending : List (String × Int)
  acmePerformed : Bool
  error : Option String

/-- `Certify.doRenewCert` (`part_003` 140-195) under a given ACME
outcome, starting from the pending map `renewCert` just wrote: on
success write `ssl_cert.pem` / `ssl_key.pem` under the domain, update
the `ssl` section (`certified = today`), delete the pending entry and
save; on rejection the `renewCert` catch deletes the pending entry and
rethrows. -/
def doRenewCert (outcome : AcmeOutcome) (store : Store) (pending1 : List (String × Int))
    (sitename : String) (now : Int) : RenewResult :=
  match outcome with
  | AcmeOutcome.success cert key =>
    let files' : String → String → Option String := fun d f =>
      if d = sitename then
        if f = "ssl_cert.pem" then some cert
        else if f = "ssl_key.pem" then some key
        else store.files d f
      else store.files d f
    let docs' : String → ConfigDoc := fun d =>
      if d = sitename then
        let old := ((store.docs sitename).ssl).getD
          { key := none, cert := none, certified := none }
        { ssl := some { old with
            key := some "ssl_key.pem",
            cert := some "ssl_cert.pem",
            certified := some (dateTrunc now) } }
      else store.docs d
    { store := { docs := docs', files := files' },
      pending := aerase sitename pending1,
      acmePerformed := true,
      error := none }
  | AcmeOutcome.failure msg =>
    { store := store,
      pending := aerase sitename pending1,
      acmePerformed := true,
      error := some msg }

/-- `Certify.renewCert` (`part_003` 112-138): reload the domain config;
if `sslConfig?.certified` is present and `moment().isBefore(certified +
MAX_AGE days)`, return without doing anything.  Otherwise fail fast when
no contact address is configured; else write
`this.pending[sitename] = moment()` and run the ACME exchange
(`doRenewCert` raced against the 120 s timeout). -/
def renewCert (contactEmail : Option String) (outcome : AcmeOutcome) (store : Store)
    (pending : List (String × Int)) (sitename : String) (now : Int) : RenewResult :=
  let fresh : Bool :=
    match (store.docs sitename).ssl with
    | none => false
    | some ssl =>
      match ssl.certified with
      | none => false
      | some c => decide (now < c + MAX_AGE * msPerDay)
  if fresh then
    { store := store, pending := pending, acmePerformed := false, error := none }
  else
    match contactEmail with
    | none =>
      { store := store, pending := pending, acmePerformed := false,
        error := some "cannot request certificate without CONTACT_EMAIL set" }
    | some _ => doRenewCert outcome store (aset sitename now pending) sitename now

/-- The ACME challenge responder of `Certify.routes` (`part_003` 56-66):
`GET /.well-known/acme-challenge/{token}` answers `200` with the stored
key authorization when `token in this.challenges`, else `404`. -/
def challengeRoute (challenges : List (String × String)) (token : String) : Nat × String :=
  match alookup challenges token with
  | some auth => (200, auth)
  | none => (404, "Challenge not found")

/-! ## Supporting lemmas for the dead-site sweep -/

theorem alookup_unique {α : Type} (m : List (String × α)) (d : String) (s : α)
    (hnd : NodupKeys m) (h : alookup m d = some s) :
    ∀ kv ∈ m, kv.1 = d → kv.2 = s := by
  induction m with
  | nil => intro kv hkv; cases hkv
  | cons hd t ih =>
    obtain ⟨k', v'⟩ := hd
    simp only [NodupKeys, List.map_cons, List.nodup_cons] at hnd
    intro kv hkv hfst
    rcases List.mem_cons.1 hkv with rfl | hkv'
    · simp only at hfst
      subst hfst
      simp [alookup] at h
      exact h
    · by_cases hk : k' = d
      · exfalso
        subst hk
        exact hnd.1 (List.mem_map.2 ⟨kv, hkv', hfst⟩)
      · simp only [alookup, if_neg hk] at h
        exact ih hnd.2 h kv hkv' hfst

theorem map_fst_preserved {α : Type} (f : (String × α) → (String × α))
    (hf : ∀ kv, (f kv).1 = kv.1) (l : List (String × α)) :
    (l.map f).map Prod.fst = l.map Prod.fst := by
  induction l with
  | nil => rfl
  | cons kv t ih => simp [hf, ih]

theorem nodupKeys_reapStep (acc : MState) (kv : String × SiteEntry)
    (h : NodupKeys acc.sites) : NodupKeys (reapStep acc kv).sites := by
  unfold reapStep
  by_cases hd : isDeadSite kv.2
  · simpa [hd] using nodupKeys_aerase kv.1 acc.sites h
  · simpa [hd] using h

theorem foldl_reap_preserves (L : List (String × SiteEntry)) (acc : MState) (d : String)
    (hL : ∀ kv ∈ L, kv.1 = d → isDeadSite kv.2 = false) :
    alookup (L.foldl reapStep acc).sites d = alookup acc.sites d := by
  induction L generalizing acc with
  | nil => rfl
  | cons kv t ih =>
    rw [List.foldl_cons]
    rw [ih (reapStep acc kv) (fun x hx => hL x (List.mem_cons_of_mem kv hx))]
    unfold reapStep
    by_cases hd : isDeadSite kv.2
    · have hne : kv.1 ≠ d := by
        intro he
        rw [hL kv (List.mem_cons_self kv t) he] at hd
        cases hd
      simp [hd, alookup_aerase_ne kv.1 d acc.sites hne]
    · simp [hd]

theorem foldl_reap_none (L : List (String × SiteEntry)) (acc : MState) (d : String)
    (h : alookup acc.sites d = none) :
    alookup (L.foldl reapStep acc).sites d = none := by
  induction L generalizing acc with
  | nil => exact h
  | cons kv t ih =>
    rw [List.foldl_cons]
    apply ih
    unfold reapStep
    by_cases hd : isDeadSite kv.2
    · simpa [hd] using alookup_aerase_none kv.1 d acc.sites h
    · simpa [hd] using h

theorem foldl_reap_port_out (L : List (String × SiteEntry)) (acc : MState) (p : Nat)
    (h : p ∉ acc.usedPorts) : p ∉ (L.foldl reapStep acc).usedPorts := by
  induction L generalizing acc with
  | nil => exact h
  | cons kv t ih =>
    rw [List.foldl_cons]
    apply ih
    unfold reapStep
    by_cases hd : isDeadSite kv.2
    · simp only [hd, if_pos]
      intro hmem
      exact h (List.mem_of_mem_filter hmem)
    · simpa [hd] using h

theorem foldl_reap_dead (L : List (String × SiteEntry)) (acc : MState) (d : String)
    (s : SiteEntry) (hnd : NodupKeys acc.sites) (hmem : (d, s) ∈ L)
    (hdead : isDeadSite s = true) :
    alookup (L.foldl reapStep acc).sites d = none
    ∧ s.port ∉ (L.foldl reapStep acc).usedPorts := by
  induction L generalizing acc with
  | nil => cases hmem
  | cons kv t ih =>
    rw [List.foldl_cons]
    rcases List.mem_cons.1 hmem with heq | hmem'
    · subst heq
      have h1 : (reapStep acc (d, s)).sites = aerase d acc.sites := by
        simp [reapStep, hdead]
      have h2 : (reapStep acc (d, s)).usedPorts = setDel s.port acc.usedPorts := by
        simp [reapStep, hdead]
      constructor
      · apply foldl_reap_none t _ d
        rw [h1]
        exact alookup_aerase_self d acc.sites hnd
      · apply foldl_reap_port_out t _ s.port
        rw [h2]
        simp [setDel, List.mem_filter]
    · exact ih (reapStep acc kv) (nodupKeys_reapStep acc kv hnd) hmem'

theorem mem_setAdd_self (p : Nat) (l : List Nat) : p ∈ setAdd p l := by
  by_cases h : p ∈ l <;> simp [setAdd, h]

/-! ## Claims -/

/-- C1: a renewal trigger (`getSiteKeys` on a stale record) writes the
`PendingRenewal` timestamp into `this.pending` synchronously, so the
timestamp is present in the state in which the queued asynchronous
`renewCert` later starts; a second trigger for the same domain while a
pending entry not older than the 60-second wait ceiling exists schedules
nothing and leaves the map untouched; and both `getSiteKeys` and
`renewCert` keep at most one live entry per domain in the pending map. -/
theorem C1_pending_dedup (store : Store) (pending : List (String × Int))
    (sitename : String) (now : Int) :
    ((getSiteKeys store pending sitename now).scheduled = true →
      alookup (getSiteKeys store pending sitename now).pending sitename = some now)
    ∧ (∀ t : Int, alookup pending sitename = some t →
        now ≤ t + MAX_WAIT_TIME * msPerSecond →
        (getSiteKeys store pending sitename now).scheduled = false
        ∧ (getSiteKeys store pending sitename now).pending = pending)
    ∧ (NodupKeys pending → NodupKeys (getSiteKeys store pending sitename now).pending)
    ∧ (∀ (contactEmail : Option String) (outcome : AcmeOutcome), NodupKeys pending →
        NodupKeys (renewCert contactEmail outcome store pending sitename now).pending) := by
  refine ⟨?_, ?_, ?_, ?_⟩
  · intro hs
    unfold getSiteKeys at hs ⊢
    by_cases hl : isLocalName sitename
    · simp [hl] at hs
    · simp only [hl, if_false, Bool.false_eq_true] at hs ⊢
      simp only [hs, if_true, if_pos]
      exact alookup_aset_self sitename now pending
  · intro t ht hle
    have hfree : pendingFree pending sitename now = false := by
      simp only [pendingFree, ht, decide_eq_false_iff_not, not_lt]
      exact hle
    unfold getSiteKeys
    by_cases hl : isLocalName sitename
    · simp [hl]
    · simp [hl, hfree]
  · intro hnd
    unfold getSiteKeys
    by_cases hl : isLocalName sitename
    · simpa [hl] using hnd
    · simp only [hl, if_false]
      by_cases hsched : certStale (store.docs sitename).ssl now
          && pendingFree pending sitename now
      · simpa [hsched] using nodupKeys_aset sitename now pending hnd
      · simpa [hsched] using hnd
  · intro contactEmail outcome hnd
    unfold renewCert
    by_cases hfresh : (match (store.docs sitename).ssl with
      | none => false
      | some ssl =>
        match ssl.certified with
        | none => false
        | some c => decide (now < c + MAX_AGE * msPerDay)) = true
    · simpa [hfresh] using hnd
    · simp only [hfresh, if_false]
      cases contactEmail with
      | none => simpa using hnd
      | some e =>
        cases outcome with
        | success cert key =>
          simpa [doRenewCert] using
            nodupKeys_aerase sitename _ (nodupKeys_aset sitename now pending hnd)
        | failure msg =>
          simpa [doRenewCert] using
            nodupKeys_aerase sitename _ (nodupKeys_aset sitename now pending hnd)

/-- A Config Store with no documents and no blob files, used to
instantiate theorems at concrete inputs. -/
def emptyStore : Store := { docs := fun _ => { ssl := none }, files := fun _ _ => none }

/-- C1 witness: with a pending entry 29 seconds old, a second trigger
schedules nothing and leaves the pending map unchanged. -/
theorem C1_pending_dedup_witness :
    (getSiteKeys emptyStore [("example.com", 1000)] "example.com" 30000).scheduled = false
    ∧ (getSiteKeys emptyStore [("example.com", 1000)] "example.com" 30000).pending
      = [("example.com", 1000)] :=
  (C1_pending_dedup emptyStore [("example.com", 1000)] "example.com" 30000).2.1
    1000 (by decide) (by decide)

/-- A registry with one live site, used to exercise the exit observer
and the sweep at a concrete input. -/
def c2State : MState :=
  { sites := [("a.com", { port := 53874, proc := some { killed := false } })],
    usedPorts := [53874],
    nextPort := 53875 }

/-- C2 counterexample: after the backend of `a.com` exits — the `close`
observer fires, nulling `this.proc` — and a subsequent
`removeDeadSites` sweep, the registry entry is still present and its
port is still in the used-port set.  The exit observer releases neither,
and the sweep's `site.proc && site.proc.killed` test skips entries whose
handle was already nulled, so the claim is false on both detection
paths. -/
theorem C2_counterexample :
    alookup (removeDeadSites (siteCloseHandler c2State "a.com")).sites "a.com"
      = some { port := 53874, proc := none }
    ∧ 53874 ∈ (removeDeadSites (siteCloseHandler c2State "a.com")).usedPorts := by
  constructor <;> decide

/-- C2 (amended): the `close` observer only nulls the process handle —
it removes no registry entry and releases no port; the
`removeDeadSites` sweep removes an entry and releases its port exactly
when the entry's process handle is still present and marked killed, and
it keeps every entry whose handle was already nulled by the observer. -/
theorem C2_dead_site_reaping (st : MState) (d : String) (s : SiteEntry) :
    ((siteCloseHandler st d).usedPorts = st.usedPorts)
    ∧ ((siteCloseHandler st d).sites.map Prod.fst = st.sites.map Prod.fst)
    ∧ (NodupKeys st.sites → alookup st.sites d = some s → s.proc = none →
        alookup (removeDeadSites st).sites d = some s)
    ∧ (NodupKeys st.sites → (d, s) ∈ st.sites → isDeadSite s = true →
        alookup (removeDeadSites st).sites d = none
        ∧ s.port ∉ (removeDeadSites st).usedPorts) := by
  refine ⟨rfl, ?_, ?_, ?_⟩
  · apply map_fst_preserved
    intro kv
    by_cases h : kv.1 = d <;> simp [h]
  · intro hnd hs hproc
    unfold removeDeadSites
    rw [foldl_reap_preserves st.sites st d ?_]
    · exact hs
    · intro kv hkv hfst
      have := alookup_unique st.sites d s hnd hs kv hkv hfst
      rw [this]
      simp [isDeadSite, hproc]
  · intro hnd hmem hdead
    exact foldl_reap_dead st.sites st d s hnd hmem hdead

/-- A registry whose only entry has an exited (nulled) process handle. -/
def c2NulledState : MState :=
  { sites := [("b.org", { port := 60000, proc := none })],
    usedPorts := [60000],
    nextPort := 60001 }

/-- C2 witness: the sweep keeps an entry whose handle was nulled by the
exit observer. -/
theorem C2_dead_site_reaping_witness :
    alookup (removeDeadSites c2NulledState).sites "b.org"
      = some { port := 60000, proc := none } :=
  (C2_dead_site_reaping c2NulledState "b.org" { port := 60000, proc := none }).2.2.1
    (by show (c2NulledState.sites.map Prod.fst).Nodup; decide) (by decide) rfl

/-- C3: `renewCert` on a domain whose freshly loaded record has a
`certified` date still inside the 75-day validity window performs no
ACME exchange and changes nothing — neither the pending map nor the
persisted config (documents and blob files) — for every contact
address and every possible ACME outcome, i.e. for every direct call. -/
theorem C3_renew_noop (contactEmail : Option String) (outcome : AcmeOutcome)
    (store : Store) (pending : List (String × Int)) (sitename : String) (now : Int)
    (ssl : SSLSection) (c : Int)
    (hssl : (store.docs sitename).ssl = some ssl) (hc : ssl.certified = some c)
    (hfresh : now < c + MAX_AGE * msPerDay) :
    renewCert contactEmail outcome store pending sitename now =
      { store := store, pending := pending, acmePerformed := false, error := none } := by
  unfold renewCert
  simp [hssl, hc, hfresh]

/-- A Config Store holding a certified record for `example.com`. -/
def c3SSL : SSLSection :=
  { key := some "ssl_key.pem", cert := some "ssl_cert.pem", certified := some 0 }

def c3Store : Store :=
  { docs := fun d => if d = "example.com" then { ssl := some c3SSL } else { ssl := none },
    files := fun _ _ => none }

/-- C3 witness: a direct `renewCert` call one second after certification
is a no-op. -/
theorem C3_renew_noop_witness :
    renewCert (some "me@there.com") (AcmeOutcome.failure "boom") c3Store []
      "example.com" 1000 =
      { store := c3Store, pending := [], acmePerformed := false, error := none } :=
  C3_renew_noop (some "me@there.com") (AcmeOutcome.failure "boom") c3Store []
    "example.com" 1000 c3SSL 0 (by simp [c3Store]) rfl (by decide)

/-- C4: the rate limiter logs the first failure of a (client, target)
key; while the window is within 5 minutes of the first occurrence it
returns true only on a multiple-of-ten occurrence count with at least
60 seconds since the last logged occurrence; once more than 5 minutes
have elapsed since the first occurrence, the counter resets and that
failure is logged as a first occurrence again. -/
theorem C4_rate_limiter :
    (∀ now : Int, shouldLogError none now =
      (true, { count := 1, firstSeen := now, lastLogged := now }))
    ∧ (∀ (e : LogEntry) (now : Int), 1 ≤ e.count → now - e.firstSeen ≤ 300000 →
        (shouldLogError (some e) now).1 = true →
        (e.count + 1) % 10 = 0 ∧ 60000 ≤ now - e.lastLogged)
    ∧ (∀ (e : LogEntry) (now : Int), 300000 < now - e.firstSeen →
        shouldLogError (some e) now =
          (true, { count := 1, firstSeen := now, lastLogged := now })) := by
  refine ⟨fun now => rfl, ?_, ?_⟩
  · intro e now hcount hwin hlog
    have hnotreset : ¬ 300000 < now - e.firstSeen := not_lt.2 hwin
    simp only [shouldLogError, if_neg hnotreset] at hlog
    have hne1 : ¬ e.count + 1 = 1 := by omega
    by_cases hcond : e.count + 1 = 1 ∨ ((e.count + 1) % 10 = 0 ∧ 60000 < now - e.lastLogged)
    · rcases hcond with h1 | ⟨h10, h60⟩
      · exact absurd h1 hne1
      · exact ⟨h10, le_of_lt h60⟩
    · rw [if_neg hcond] at hlog
      cases hlog
  · intro e now hreset
    simp only [shouldLogError, if_pos hreset]

/-- C4 witness: the 20th failure, 100 seconds after the last logged one
and within the 5-minute window, is logged — and indeed lands on a
multiple-of-ten count at least 60 s after the previous log line. -/
theorem C4_rate_limiter_witness :
    (19 + 1) % 10 = 0 ∧ (60000 : Int) ≤ 100000 - 0 :=
  C4_rate_limiter.2.1 { count := 19, firstSeen := 0, lastLogged := 0 } 100000
    (by decide) (by decide) (by decide)

/-- C5: on both proxy paths the header set relayed to the client never
contains `transfer-encoding` or `content-encoding` copied from the
upstream response, and the header set forwarded to the backend never
contains the client's `content-length`. -/
theorem C5_header_hygiene (h : String → Option String) :
    binaryCleanHeaders h "transfer-encoding" = none
    ∧ binaryCleanHeaders h "content-encoding" = none
    ∧ textCleanHeaders h "transfer-encoding" = none
    ∧ textCleanHeaders h "content-encoding" = none
    ∧ headersToForward h "content-length" = none := by
  refine ⟨rfl, ?_, rfl, ?_, rfl⟩ <;> simp [binaryCleanHeaders, textCleanHeaders]

/-- C6: the ACME challenge responder answers `200` with the stored key
authorization for a token present in the Challenge Store, and `404` for
any other token. -/
theorem C6_challenge_responder (challenges : List (String × String)) (token : String) :
    (∀ auth, alookup challenges token = some auth →
      challengeRoute challenges token = (200, auth))
    ∧ (alookup challenges token = none →
      challengeRoute challenges token = (404, "Challenge not found")) := by
  constructor
  · intro auth h
    simp [challengeRoute, h]
  · intro h
    simp [challengeRoute, h]

/-- C6 witness: a stored token is served with `200` and its
authorization; a missing token gets `404`. -/
theorem C6_challenge_responder_witness :
    challengeRoute [("tokenA", "authA")] "tokenA" = (200, "authA")
    ∧ challengeRoute [("tokenA", "authA")] "tokenB" = (404, "Challenge not found") :=
  ⟨(C6_challenge_responder [("tokenA", "authA")] "tokenA").1 "authA" (by decide),
    (C6_challenge_responder [("tokenA", "authA")] "tokenB").2 (by decide)⟩

/-- C7: `Site.WashName` sends the empty host name and exactly the bare
IPv4 literals — four dot-separated groups of 1-3 digits — to the blank
string, and every other host name to its lower-casing.  (`WashName` is a
pure function of its argument, so normalization has no side effects.) -/
theorem C7_washname (s : String) :
    (WashName s = "" ↔ s = "" ∨ IsBareIPv4 s)
    ∧ (s ≠ "" → ¬ IsBareIPv4 s → WashName s = jsToLower s) := by
  have hlower : ∀ s' : String, s' ≠ "" → jsToLower s' ≠ "" := by
    intro s' hs' hcontra
    apply hs'
    have hdata : s'.data.map Char.toLower = [] := congrArg String.data hcontra
    have hnil : s'.data = [] := List.map_eq_nil_iff.1 hdata
    cases s' with
    | mk l =>
      simp only [String.data] at hnil
      rw [hnil]
  constructor
  · constructor
    · intro h
      by_cases hs : s = ""
      · exact Or.inl hs
      · by_cases hip : ipv4Chars s.data = true
        · exact Or.inr ((isBareIPv4_iff s).2 hip)
        · exfalso
          unfold WashName at h
          rw [if_neg hs, if_neg hip] at h
          exact hlower s hs h
    · rintro (rfl | hip)
      · rfl
      · unfold WashName
        by_cases hs : s = ""
        · rw [if_pos hs]
        · rw [if_neg hs, if_pos ((isBareIPv4_iff s).1 hip)]
  · intro hs hb
    have hip : ¬ ipv4Chars s.data = true := fun h => hb ((isBareIPv4_iff s).2 h)
    unfold WashName
    rw [if_neg hs, if_neg hip]

/-- C7 witness: a mixed-case non-IPv4 host name is exactly lower-cased. -/
theorem C7_washname_witness : WashName "ExAmPle.Com" = jsToLower "ExAmPle.Com" :=
  (C7_washname "ExAmPle.Com").2 (by decide)
    (fun h => absurd ((isBareIPv4_iff "ExAmPle.Com").1 h) (by decide))

/-- A concrete inbound request header object carrying `host` and
`content-length`. -/
def c8ReqHeaders : String → Option String := fun k =>
  if k = "host" then some "example.com"
  else if k = "content-length" then some "42" else none

/-- C8 counterexample: the spread `{...req.headers, 'content-length':
undefined}` overrides only `content-length`; the inbound `host` header
passes through to the backend unchanged, so the claim that the
forwarded header set does not contain the inbound `host` is false. -/
theorem C8_counterexample :
    headersToForward c8ReqHeaders "host" = some "example.com" := by
  decide

/-- C8 (amended): the header set forwarded to the backend drops only the
client's `content-length`; every other inbound header — the `host`
header included — is forwarded with its inbound value. -/
theorem C8_host_forwarded (h : String → Option String) (k : String)
    (hk : k ≠ "content-length") : headersToForward h k = h k := by
  simp [headersToForward, hk]

/-- C8 witness: the inbound `host` value survives the forward filter. -/
theorem C8_host_forwarded_witness :
    headersToForward c8ReqHeaders "host" = c8ReqHeaders "host" :=
  C8_host_forwarded c8ReqHeaders "host" (by decide)

/-- C9: while a `PendingRenewal` entry exists for a host name, the SNI
callback immediately invokes `cb` with the error string `'pending'` and
leaves the pending map alone; the Config Store is quantified over, so
the outcome is the same whatever key and certificate blobs exist on
disk — no TLS context is returned during an in-flight renewal. -/
theorem C9_sni_pending (store : Store) (pending : List (String × Int))
    (hostname : String) (now : Int) (t : Int)
    (hp : alookup pending hostname = some t) :
    SNICallback store pending hostname now = (SNIResult.err "pending", pending) := by
  simp [SNICallback, hp]

/-- C9 witness: with a pending entry for `example.com`, the callback
errors with `'pending'` even though the store is empty or arbitrary. -/
theorem C9_sni_pending_witness :
    SNICallback emptyStore [("example.com", 0)] "example.com" 12345
      = (SNIResult.err "pending", [("example.com", 0)]) :=
  C9_sni_pending emptyStore [("example.com", 0)] "example.com" 12345 0 (by decide)

/-- C10: a request whose host name washes to the empty string (empty
host or bare IPv4 literal) and has no registry entry under `""` is not
rejected: the router stores a fresh `Site.Clone` under the empty-string
key — allocating the next port (added to the used-port set) and
launching a backend process — and answers with the 2-second delayed
redirect back to the same host and path. -/
theorem C10_blank_host_spawn (st : MState) (host url : String)
    (hwash : WashName host = "") (hnone : alookup st.sites "" = none) :
    alookup (handleRequest st host url).1.sites ""
      = some { port := st.nextPort, proc := some { killed := false } }
    ∧ st.nextPort ∈ (handleRequest st host url).1.usedPorts
    ∧ (handleRequest st host url).2
      = RouteResponse.redirectAfter 2000 ("//" ++ host ++ url) := by
  unfold handleRequest
  simp only [hwash, hnone]
  refine ⟨?_, ?_, ?_⟩
  · exact alookup_aset_self "" _ _
  · exact mem_setAdd_self st.nextPort st.usedPorts
  · trivial

/-- An empty registry, as at startup without a `./sites` directory. -/
def c10State : MState := { sites := [], usedPorts := [], nextPort := 53874 }

/-- C10 witness: a bare-IPv4 request against an empty registry spawns a
site under `""` on port 53874 and redirects after 2 s. -/
theorem C10_blank_host_spawn_witness :
    alookup (handleRequest c10State "10.0.0.1" "/index.html").1.sites ""
      = some { port := 53874, proc := some { killed := false } }
    ∧ 53874 ∈ (handleRequest c10State "10.0.0.1" "/index.html").1.usedPorts
    ∧ (handleRequest c10State "10.0.0.1" "/index.html").2
      = RouteResponse.redirectAfter 2000 ("//" ++ "10.0.0.1" ++ "/index.html") :=
  C10_blank_host_spawn c10State "10.0.0.1" "/index.html" (by decide) (by decide)
